import Mathlib

/-!
Verification of the response-parsing, undo/redo, streaming, error-handling and
persistence logic of the GitHub-profile README designer application.

The application (src/App.tsx, in two near-identical variants, plus the variant
in src/unnamed/part_000) is a React single-page app.  Its verifiable logic is
pure string munging and list/state bookkeeping, embedded here shallowly:

* JS strings are modelled as `List Char` (with `String` wrappers where the
  state holds strings); JS `trim`, `indexOf`, `substring`, `slice`, `endsWith`
  and the two regular expressions of `parseAIResponse` are translated to
  executable functions below.
* React `useState` state is modelled as a record `AppState`; each event
  handler becomes a state-transition function.
* JS exceptions are modelled by `ThrownValue` (an `Error` carrying a message,
  or any other thrown value).
-/

namespace ProfileApp

/-- JS whitespace for `String.prototype.trim` (space, tab, LF, CR, VT, FF,
NBSP, BOM; the rarer Unicode space characters never occur in the inputs of
interest and are omitted). -/
def isJsWhitespace (c : Char) : Bool :=
  c = ' ' || c = '\t' || c = '\n' || c = '\r' ||
  c = Char.ofNat 11 || c = Char.ofNat 12 || c = Char.ofNat 160 || c = Char.ofNat 65279

/-- JS `String.prototype.trim` on character lists. -/
def trimList (l : List Char) : List Char :=
  ((l.dropWhile isJsWhitespace).reverse.dropWhile isJsWhitespace).reverse

/-- JS `String.prototype.trim`. -/
def trimString (s : String) : String := ⟨trimList s.data⟩

/-- Index of the first occurrence of `pat` as a contiguous sublist
(JS `String.prototype.indexOf`, `none` for -1). -/
def firstIdxOf (pat : List Char) : List Char → Option Nat
  | [] => if pat.isPrefixOf ([] : List Char) then some 0 else none
  | c :: rest =>
    if pat.isPrefixOf (c :: rest) then some 0
    else (firstIdxOf pat rest).map (· + 1)

/-- JS `String.prototype.includes` / regex "occurs anywhere". -/
def containsSub (pat : List Char) : List Char → Bool
  | [] => pat.isPrefixOf ([] : List Char)
  | c :: rest => pat.isPrefixOf (c :: rest) || containsSub pat rest

/-- The opening delimiter tag `<markdown_code>`. -/
def openTag : List Char := "<markdown_code>".data

/-- The closing delimiter tag `</markdown_code>`. -/
def closeTag : List Char := "</markdown_code>".data

/-- Capture group of the first (leftmost, lazy) match of the regex
`<markdown_code>([\s\S]*?)<\/markdown_code>` with the `s` flag.
Leftmost-lazy semantics: the regex engine tries start positions left to
right, so a successful match is anchored at the first occurrence of the
open tag (if the first open tag has no close tag after it, no later start
position can have one either), and the lazy group ends at the first
occurrence of the close tag after the open tag. -/
def regexCapture (r : List Char) : Option (List Char) :=
  match firstIdxOf openTag r with
  | none => none
  | some i =>
    let afterOpen := r.drop (i + openTag.length)
    match firstIdxOf closeTag afterOpen with
    | none => none
    | some j => some (afterOpen.take j)

/-- `responseText.replace(codeRegex, '')`: the input with the first
(leftmost, lazy) regex match removed; the input unchanged when the regex
does not match. -/
def regexRemove (r : List Char) : List Char :=
  match firstIdxOf openTag r with
  | none => r
  | some i =>
    let afterOpen := r.drop (i + openTag.length)
    match firstIdxOf closeTag afterOpen with
    | none => r
    | some j => r.take i ++ afterOpen.drop (j + closeTag.length)

/-- The backtick character (U+0060). -/
def tickChar : Char := Char.ofNat 96

/-- Number of non-overlapping, left-to-right occurrences of three backticks,
as counted by `(trimmedResponse.match(/```/g) || []).length`. -/
def countTicks : List Char → Nat
  | [] => 0
  | a :: b :: c :: rest =>
    if a = tickChar ∧ b = tickChar ∧ c = tickChar then 1 + countTicks rest
    else countTicks (b :: c :: rest)
  | _ :: rest => countTicks rest

/-- JS `trimmedResponse.startsWith('#')`. -/
def startsWithHash : List Char → Bool
  | [] => false
  | c :: _ => c = '#'

/-- Result of `parseAIResponse`: conversational `text` plus the optional
extracted `markdown` (the source returns an object whose `markdown`
property may be absent). -/
structure ParseResult where
  text : List Char
  markdown : Option (List Char)
deriving Repr, DecidableEq

/-- Truthiness of `match && match[1]` in the source: the regex matches and
the captured group is a non-empty string. -/
def matchTruthy (r : List Char) : Bool :=
  match regexCapture r with
  | some cap => !cap.isEmpty
  | none => false

/-- The salvage branch of `parseAIResponse` (opening tag at index `i` found,
but the `match && match[1]` condition failed): text before the tag becomes
the conversation, everything after the tag is recovered as markdown, with a
trailing close tag stripped when the trimmed remainder ends with one. -/
def salvageResult (r : List Char) (i : Nat) : ParseResult :=
  let text := trimList (r.take i)
  let md := r.drop (i + openTag.length)
  let mdAdj :=
    if closeTag.isSuffixOf (trimList md) then
      (trimList md).take ((trimList md).length - closeTag.length)
    else md
  { text := text, markdown := some (trimList mdAdj) }

/-- `parseAIResponse` of the creative-code variant of src/App.tsx
(lines 275-310) and of src/unnamed/part_000 (lines 279-314): balanced
delimiter extraction, then unmatched-open-tag salvage, then the
fenced-code-block-count heuristic, else plain conversational text. -/
def parseAIResponse (r : List Char) : ParseResult :=
  if matchTruthy r then
    { text := trimList (regexRemove r),
      markdown := some (trimList ((regexCapture r).getD [])) }
  else
    match firstIdxOf openTag r with
    | some i => salvageResult r i
    | none =>
      let trimmed := trimList r
      if 2 ≤ countTicks trimmed then
        { text := [], markdown := some trimmed }
      else
        { text := trimList r, markdown := none }

/-- `parseAIResponse` of the profile-designer variant of src/App.tsx
(lines 806-841): identical except that `isLikelyMarkdown` additionally
fires when the trimmed response starts with a `#` character. -/
def parseAIResponseProfile (r : List Char) : ParseResult :=
  if matchTruthy r then
    { text := trimList (regexRemove r),
      markdown := some (trimList ((regexCapture r).getD [])) }
  else
    match firstIdxOf openTag r with
    | some i => salvageResult r i
    | none =>
      let trimmed := trimList r
      if 2 ≤ countTicks trimmed || startsWithHash trimmed then
        { text := [], markdown := some trimmed }
      else
        { text := trimList r, markdown := none }

/-- Modelled from the spec: the four-outcome description of the parser in
claim C1 ("(1) balanced pair with non-empty captured content is extracted;
(2) otherwise an opening tag anywhere salvages the trailing content;
(3) otherwise at least two fenced-code markers make the whole trimmed
response markdown; (4) otherwise the whole trimmed response is
conversational"), written with the spec-level occurrence test
`containsSub`. -/
def claimedParse (r : List Char) : ParseResult :=
  if matchTruthy r then
    { text := trimList (regexRemove r),
      markdown := some (trimList ((regexCapture r).getD [])) }
  else if containsSub openTag r then
    salvageResult r ((firstIdxOf openTag r).getD 0)
  else if 2 ≤ countTicks (trimList r) then
    { text := [], markdown := some (trimList r) }
  else
    { text := trimList r, markdown := none }

/-- Modelled from the spec: the amended four-outcome description for the
profile-designer variant, whose third outcome also fires when the trimmed
response starts with `#`. -/
def claimedParseProfile (r : List Char) : ParseResult :=
  if matchTruthy r then
    { text := trimList (regexRemove r),
      markdown := some (trimList ((regexCapture r).getD [])) }
  else if containsSub openTag r then
    salvageResult r ((firstIdxOf openTag r).getD 0)
  else if 2 ≤ countTicks (trimList r) || startsWithHash (trimList r) then
    { text := [], markdown := some (trimList r) }
  else
    { text := trimList r, markdown := none }

/-- The user-facing message for a content-safety rejection. -/
def safetyMessage : String :=
  "The request was blocked for safety reasons. Please adjust your prompt and try again."

/-- The user-facing message for a network failure. -/
def networkMessage : String :=
  "A network error occurred. Please check your connection and try again."

/-- The user-facing message for every other failure. -/
def genericMessage : String :=
  "Failed to generate code. The AI might be busy or the request may be too complex. Try again with a simpler idea."

/-- A JS thrown value: either an `Error` instance carrying a `message`
string, or any other value (strings, numbers, objects... fail the
`instanceof Error` test). -/
inductive ThrownValue where
  | jsError (message : String)
  | nonError
deriving Repr, DecidableEq

/-- `getErrorMessage` (src/App.tsx lines 43-54): maps a thrown value to one
of the three fixed user-facing strings. -/
def getErrorMessage : ThrownValue → String
  | .jsError m =>
    if containsSub "SAFETY".data m.data then safetyMessage
    else if containsSub "fetch".data m.data then networkMessage
    else genericMessage
  | .nonError => genericMessage

/-- Sender of a chat message. -/
inductive Sender where
  | user
  | ai
deriving Repr, DecidableEq

/-- `ChatMessage` (src/App.tsx lines 58-63); the optional `markdown`
property is `none` when absent. -/
structure ChatMessage where
  sender : Sender
  text : String
  markdown : Option String
  id : Nat
deriving Repr, DecidableEq

/-- `GenerationHistoryItem` (src/App.tsx lines 65-70). -/
structure GenerationHistoryItem where
  id : Nat
  markdown : String
  preview : String
  timestamp : String
deriving Repr, DecidableEq

/-- Removal of the first match of `/#+\s*/` from the first line of a new
snapshot: at the first `#`, drop the maximal run of `#` and the following
run of whitespace; elsewhere keep the character and continue. -/
def replaceFirstHashRun : List Char → List Char
  | [] => []
  | c :: rest =>
    if c = '#' then (rest.dropWhile (fun d => d = '#')).dropWhile isJsWhitespace
    else c :: replaceFirstHashRun rest

/-- The generation-history preview string:
`newMarkdown.split('\n')[0].replace(/#+\s*/, '').slice(0, 50) || 'Untitled Snippet'`
(the profile variant uses the literal 'Untitled README'; no claim depends on
the literal, so the first variant's is used). -/
def previewOf (m : String) : String :=
  let line1 := m.data.takeWhile (fun c => ¬ (c = '\n'))
  let sliced := (replaceFirstHashRun line1).take 50
  if sliced.isEmpty then "Untitled Snippet" else ⟨sliced⟩

/-- The variant-independent part of the component state: each field is one
`useState` hook of `App` (the `chatInstance` ref and the purely visual
resizing state play no part in any claim and are omitted). The history
index is an `Int` because the JS value is a number whose non-negativity is
an invariant, not a type. -/
structure AppState where
  userPrompt : String
  markdown : String
  chatHistory : List ChatMessage
  markdownHistory : List String
  markdownHistoryIndex : Int
  generationHistory : List GenerationHistoryItem
  activeHistoryId : Option Nat
  error : Option String
  isStreaming : Bool
deriving Repr, DecidableEq

/-- The initial state: `useState('')`, `useState([''])`, `useState(0)`,
etc., with nothing restored from storage. -/
def initialState : AppState :=
  { userPrompt := "", markdown := "", chatHistory := [],
    markdownHistory := [""], markdownHistoryIndex := 0,
    generationHistory := [], activeHistoryId := none,
    error := none, isStreaming := false }

/-- JS array indexing `markdownHistory[i]`; out-of-range access yields
`undefined` in JS, modelled as `""` (unreachable under the index
invariant `Inv`). -/
def jsIndex (l : List String) (i : Int) : String :=
  if h : 0 ≤ i ∧ i.toNat < l.length then l.get ⟨i.toNat, h.2⟩ else ""

/-- `updateMarkdownState` (src/App.tsx lines 164-184): sets the document,
truncates the undo stack at the current index (`slice(0, index + 1)`),
appends the new snapshot, points the index at the new last entry, and
prepends a generation-history item.  `now` stands for `Date.now()` and
`ts` for the formatted `toLocaleTimeString` string. -/
def updateMarkdownState (s : AppState) (newMarkdown : String) (now : Nat) (ts : String) :
    AppState :=
  { s with
    markdown := newMarkdown,
    markdownHistory := s.markdownHistory.take (s.markdownHistoryIndex + 1).toNat ++ [newMarkdown],
    markdownHistoryIndex :=
      ((s.markdownHistory.take (s.markdownHistoryIndex + 1).toNat ++ [newMarkdown]).length : Int) - 1,
    generationHistory :=
      { id := now, markdown := newMarkdown, preview := previewOf newMarkdown,
        timestamp := ts } :: s.generationHistory,
    activeHistoryId := some now }

/-- `handleUndo` (src/App.tsx lines 186-193): steps the index back and
shows that snapshot when the index is positive, otherwise does nothing. -/
def handleUndo (s : AppState) : AppState :=
  if 0 < s.markdownHistoryIndex then
    { s with
      markdownHistoryIndex := s.markdownHistoryIndex - 1,
      markdown := jsIndex s.markdownHistory (s.markdownHistoryIndex - 1),
      activeHistoryId := none }
  else s

/-- `handleRedo` (src/App.tsx lines 195-202): steps the index forward and
shows that snapshot when the index is before the last entry, otherwise
does nothing. -/
def handleRedo (s : AppState) : AppState :=
  if s.markdownHistoryIndex < (s.markdownHistory.length : Int) - 1 then
    { s with
      markdownHistoryIndex := s.markdownHistoryIndex + 1,
      markdown := jsIndex s.markdownHistory (s.markdownHistoryIndex + 1),
      activeHistoryId := none }
  else s

/-- `handleSelectHistory` (src/App.tsx lines 234-243): when an item with
the given id exists, shows it and resets the undo stack to
`['', selectedItem.markdown]` with index 1. -/
def handleSelectHistory (s : AppState) (id : Nat) : AppState :=
  match s.generationHistory.find? (fun it => it.id == id) with
  | some item =>
    { s with
      markdown := item.markdown,
      markdownHistory := ["", item.markdown],
      markdownHistoryIndex := 1,
      activeHistoryId := some id }
  | none => s

/-- `handleNewTask` (src/App.tsx lines 250-259). -/
def handleNewTask (s : AppState) : AppState :=
  { s with
    userPrompt := "", markdown := "", chatHistory := [],
    markdownHistory := [""], markdownHistoryIndex := 0,
    activeHistoryId := none, error := none }

/-- The invariant of claim C4: the undo index stays within the bounds of a
non-empty stack. -/
def Inv (s : AppState) : Prop :=
  0 ≤ s.markdownHistoryIndex ∧
  s.markdownHistoryIndex ≤ (s.markdownHistory.length : Int) - 1 ∧
  s.markdownHistory ≠ []

instance (s : AppState) : Decidable (Inv s) := by
  unfold Inv; infer_instance

/-- State of the streaming accumulation loop of `handleGenerate`
(src/App.tsx lines 368-374): the local `streamedResponse` accumulator and
the text shown in the AI placeholder chat message. -/
structure StreamLoopState where
  streamedResponse : String
  placeholderText : String
deriving Repr, DecidableEq

/-- One iteration of `for await (const chunk of responseStream)`:
`streamedResponse += text` and the placeholder message is updated to the
accumulated text. -/
def streamChunkStep (st : StreamLoopState) (chunk : String) : StreamLoopState :=
  let r := st.streamedResponse ++ chunk
  { streamedResponse := r, placeholderText := r }

/-- The whole accumulation loop over a finite chunk sequence. -/
def runStreamLoop (chunks : List String) : StreamLoopState :=
  chunks.foldl streamChunkStep { streamedResponse := "", placeholderText := "" }

/-- The parse performed after the loop (src/App.tsx line 376): the full
accumulated response is handed to `parseAIResponse`. -/
def generateFinalParse (chunks : List String) : ParseResult :=
  parseAIResponse (runStreamLoop chunks).streamedResponse.data

/-- The error message of the empty-prompt early return of `handleGenerate`. -/
def emptyPromptMessage : String :=
  "Please describe the design or animation you want to create."

/-- The error message shown when the parsed response carries neither
markdown nor conversational text (src/App.tsx line 385). -/
def noContentMessage : String :=
  "The AI didn't return any content. Try rephrasing your idea."

/-- Truthiness of `newMarkdown` in `if (newMarkdown) { ... }`:
present and non-empty. -/
def mdTruthy : Option (List Char) → Bool
  | some md => !md.isEmpty
  | none => false

/-- The post-parse conditional of `handleGenerate` (src/App.tsx lines
382-386): a truthy extracted markdown is written through
`updateMarkdownState`; otherwise, if the conversational text is also
empty, the no-content error is shown. -/
def applyParseOutcome (s : AppState) (pr : ParseResult) (now : Nat) (ts : String) : AppState :=
  if mdTruthy pr.markdown then updateMarkdownState s ⟨pr.markdown.getD []⟩ now ts
  else if pr.text.isEmpty then { s with error := some noContentMessage }
  else s

/-- A run of `handleGenerate` (src/App.tsx lines 324-394) that throws.
`delivered = none` means the request failed before the AI placeholder
message was appended; `delivered = some chunks` means the placeholder was
appended and `chunks` arrived before the failure.  The body: guard on a
blank prompt, set the streaming flag, clear the error, document and chat,
post the user message, stream, then `catch` (set the mapped error message,
keep only user-sent messages) and `finally` (clear the streaming flag). -/
def handleGenerateFailure (s : AppState) (now : Nat) (err : ThrownValue)
    (delivered : Option (List String)) : AppState :=
  if trimString s.userPrompt = "" then { s with error := some emptyPromptMessage }
  else
    let userMessage : ChatMessage :=
      { sender := .user, text := s.userPrompt, markdown := none, id := now }
    let chat1 : List ChatMessage :=
      match delivered with
      | none => [userMessage]
      | some chunks =>
        [userMessage,
         { sender := .ai, text := (runStreamLoop chunks).placeholderText,
           markdown := none, id := now + 1 }]
    { s with
      markdown := "",
      error := some (getErrorMessage err),
      chatHistory := chat1.filter (fun m => m.sender == Sender.user),
      isStreaming := false }

/-- A run of `handleSendMessage` (src/App.tsx lines 396-451) that throws.
The body: guard on a blank message, set the streaming flag, clear the
error, append the user message, stream into an appended AI placeholder,
then `catch` (set the mapped error message, drop the last message with
`slice(0, -1)`) and `finally` (clear the streaming flag). -/
def handleSendMessageFailure (s : AppState) (message : String) (now : Nat)
    (err : ThrownValue) (delivered : Option (List String)) : AppState :=
  if trimString message = "" then s
  else
    let userMessage : ChatMessage :=
      { sender := .user, text := message, markdown := none, id := now }
    let chat1 : List ChatMessage :=
      match delivered with
      | none => s.chatHistory ++ [userMessage]
      | some chunks =>
        s.chatHistory ++
          [userMessage,
           { sender := .ai, text := (runStreamLoop chunks).placeholderText,
             markdown := none, id := now + 1 }]
    { s with
      error := some (getErrorMessage err),
      chatHistory := chat1.dropLast,
      isStreaming := false }

/-- The persisted blob of the creative-code variant (src/App.tsx lines
148-162): the object serialized into the browser-storage key
`creativeCodeGeneratorConfig_v1`.  JSON serialization of this record of
strings, booleans and lists of plain records is faithful, so
`JSON.parse(JSON.stringify(blob))` is modelled as the identity. -/
structure SavedState1 where
  prompt : String
  programmingLanguage : String
  isChatModeEnabled : Bool
  chatHistory : List ChatMessage
  generationHistory : List GenerationHistoryItem
deriving Repr, DecidableEq

/-- The state of the creative-code variant relevant to persistence. -/
structure AppStateV1 where
  userPrompt : String
  programmingLanguage : String
  markdown : String
  chatHistory : List ChatMessage
  markdownHistory : List String
  markdownHistoryIndex : Int
  isChatModeEnabled : Bool
  generationHistory : List GenerationHistoryItem
deriving Repr, DecidableEq

/-- The save effect of the creative-code variant (src/App.tsx lines
149-155): the object literal written to storage. -/
def stateToSave1 (s : AppStateV1) : SavedState1 :=
  { prompt := s.userPrompt,
    programmingLanguage := s.programmingLanguage,
    isChatModeEnabled := s.isChatModeEnabled,
    chatHistory := s.chatHistory,
    generationHistory := s.generationHistory }

/-- JS `a || b` for strings: the empty string is falsy. -/
def jsOrString (v d : String) : String := if v = "" then d else v

/-- The `useState` initializers of the creative-code variant (src/App.tsx
lines 89-99) applied to the loaded blob (`loadState`, lines 73-84, returns
`undefined` when the key is missing or unparsable, modelled by `none`).
JS `||` on an array is the array itself (arrays are truthy, even empty
ones), and `?? true` keeps any stored Boolean. -/
def initApp1 (saved : Option SavedState1) : AppStateV1 :=
  match saved with
  | none =>
    { userPrompt := "", programmingLanguage := "HTML/CSS/JS", markdown := "",
      chatHistory := [], markdownHistory := [""], markdownHistoryIndex := 0,
      isChatModeEnabled := true, generationHistory := [] }
  | some sv =>
    { userPrompt := jsOrString sv.prompt "",
      programmingLanguage := jsOrString sv.programmingLanguage "HTML/CSS/JS",
      markdown := "",
      chatHistory := sv.chatHistory,
      markdownHistory := [""], markdownHistoryIndex := 0,
      isChatModeEnabled := sv.isChatModeEnabled,
      generationHistory := sv.generationHistory }

/-- The persisted blob of the profile-designer variant (src/App.tsx lines
677-692), stored under `githubProfileDesignerConfig_v1`; it also carries
the selected languages and the GitHub token. -/
structure SavedState2 where
  prompt : String
  selectedLanguages : List String
  isChatModeEnabled : Bool
  chatHistory : List ChatMessage
  generationHistory : List GenerationHistoryItem
  githubToken : String
deriving Repr, DecidableEq

/-- The state of the profile-designer variant relevant to persistence. -/
structure AppStateV2 where
  userPrompt : String
  selectedLanguages : List String
  githubToken : String
  markdown : String
  chatHistory : List ChatMessage
  markdownHistory : List String
  markdownHistoryIndex : Int
  isChatModeEnabled : Bool
  generationHistory : List GenerationHistoryItem
deriving Repr, DecidableEq

/-- The save effect of the profile-designer variant (src/App.tsx lines
678-685). -/
def stateToSave2 (s : AppStateV2) : SavedState2 :=
  { prompt := s.userPrompt,
    selectedLanguages := s.selectedLanguages,
    isChatModeEnabled := s.isChatModeEnabled,
    chatHistory := s.chatHistory,
    generationHistory := s.generationHistory,
    githubToken := s.githubToken }

/-- The `useState` initializers of the profile-designer variant
(src/App.tsx lines 617-629) applied to the loaded blob. -/
def initApp2 (saved : Option SavedState2) : AppStateV2 :=
  match saved with
  | none =>
    { userPrompt := "", selectedLanguages := [], githubToken := "",
      markdown := "", chatHistory := [], markdownHistory := [""],
      markdownHistoryIndex := 0, isChatModeEnabled := true,
      generationHistory := [] }
  | some sv =>
    { userPrompt := jsOrString sv.prompt "",
      selectedLanguages := sv.selectedLanguages,
      githubToken := jsOrString sv.githubToken "",
      markdown := "",
      chatHistory := sv.chatHistory,
      markdownHistory := [""], markdownHistoryIndex := 0,
      isChatModeEnabled := sv.isChatModeEnabled,
      generationHistory := sv.generationHistory }

/-- The response consisting of nothing but an immediately-closed delimiter
pair, the edge case of claim C10. -/
def emptyTagResponse : List Char := "<markdown_code></markdown_code>".data

/-- A reachable state in which the displayed markdown differs from the
history entry at the current index: one successful generation of "M"
followed by a failed generation (`handleGenerate` clears the document at
its start and the catch block never restores it). -/
def brokenState : AppState :=
  handleGenerateFailure
    { updateMarkdownState initialState "M" 7 "t" with userPrompt := "x" }
    9 ThrownValue.nonError none

/-- A concrete state one undo behind the top of a three-entry stack. -/
def sampleUndoState : AppState :=
  { initialState with markdownHistory := ["", "a", "b"], markdownHistoryIndex := 1 }

/- ------------------------------------------------------------------ -/
/- Helper lemmas                                                      -/
/- ------------------------------------------------------------------ -/

theorem firstIdxOf_spec_some (pat : List Char) (l : List Char) :
    ∀ i : Nat, pat.isPrefixOf (l.drop i) = true →
      (∀ k, k < i → pat.isPrefixOf (l.drop k) = false) →
      firstIdxOf pat l = some i := by
  induction l with
  | nil =>
    intro i hp hmin
    unfold firstIdxOf
    cases i with
    | zero => simp only [List.drop_zero] at hp; simp [hp]
    | succ j =>
      exfalso
      have h0 := hmin 0 (Nat.succ_pos j)
      simp only [List.drop_zero] at h0
      simp only [List.drop_nil] at hp
      rw [h0] at hp
      exact Bool.false_ne_true hp
  | cons c rest ih =>
    intro i hp hmin
    unfold firstIdxOf
    cases i with
    | zero =>
      simp only [List.drop_zero] at hp
      simp [hp]
    | succ j =>
      have h0 := hmin 0 (Nat.succ_pos j)
      simp only [List.drop_zero] at h0
      rw [h0]
      simp only [Bool.false_eq_true, if_false]
      have hj : firstIdxOf pat rest = some j := by
        apply ih
        · simpa only [List.drop_succ_cons] using hp
        · intro k hk
          have := hmin (k + 1) (Nat.succ_lt_succ hk)
          simpa only [List.drop_succ_cons] using this
      rw [hj]
      rfl

theorem containsSub_eq_isSome (pat : List Char) (l : List Char) :
    containsSub pat l = (firstIdxOf pat l).isSome := by
  induction l with
  | nil =>
    unfold containsSub firstIdxOf
    by_cases h : pat.isPrefixOf ([] : List Char) <;> simp [h]
  | cons c rest ih =>
    unfold containsSub firstIdxOf
    by_cases h : pat.isPrefixOf (c :: rest)
    · simp [h]
    · simp only [h, Bool.false_or, Bool.false_eq_true, if_false, ih]
      cases firstIdxOf pat rest <;> simp

theorem runStreamLoop_data (chunks : List String) :
    ∀ init : StreamLoopState,
      (chunks.foldl streamChunkStep init).streamedResponse.data
        = init.streamedResponse.data ++ (chunks.map String.data).flatten := by
  induction chunks with
  | nil => intro init; simp
  | cons c rest ih =>
    intro init
    simp only [List.foldl_cons, List.map_cons, List.flatten_cons]
    rw [ih]
    simp [streamChunkStep, String.data_append]

/- ------------------------------------------------------------------ -/
/- Claim theorems                                                     -/
/- ------------------------------------------------------------------ -/

/-- C1 (amended): every response is parsed by exactly one of the four
ordered outcomes — balanced-pair extraction, open-tag salvage, the
likely-markdown heuristic, plain conversational text — where the heuristic
of the creative-code variant is "at least two fenced-code markers" and the
heuristic of the profile-designer variant additionally fires when the
trimmed response starts with a `#` character. -/
theorem parse_four_outcomes (r : List Char) :
    parseAIResponse r = claimedParse r ∧
    parseAIResponseProfile r = claimedParseProfile r := by
  constructor
  · unfold parseAIResponse claimedParse
    by_cases h : matchTruthy r = true
    · simp [h]
    · simp only [h, Bool.false_eq_true, if_false]
      cases hf : firstIdxOf openTag r with
      | some i => simp [containsSub_eq_isSome, hf]
      | none => simp [containsSub_eq_isSome, hf]
  · unfold parseAIResponseProfile claimedParseProfile
    by_cases h : matchTruthy r = true
    · simp [h]
    · simp only [h, Bool.false_eq_true, if_false]
      cases hf : firstIdxOf openTag r with
      | some i => simp [containsSub_eq_isSome, hf]
      | none => simp [containsSub_eq_isSome, hf]

/-- C1 counterexample: on the response `# Hi` no delimiter tag occurs and
fewer than two fenced-code markers are found, so by the claim the whole
trimmed response should be returned as conversational text with no
markdown; the profile-designer variant instead returns it as markdown with
empty conversational text. -/
theorem parse_four_outcomes_counterexample :
    matchTruthy "# Hi".data = false ∧
    containsSub openTag "# Hi".data = false ∧
    countTicks (trimList "# Hi".data) < 2 ∧
    parseAIResponseProfile "# Hi".data = { text := [], markdown := some "# Hi".data } ∧
    parseAIResponseProfile "# Hi".data ≠ { text := trimList "# Hi".data, markdown := none } := by
  decide

/-- C5: the streaming loop of `handleGenerate` accumulates exactly the
concatenation of the chunk texts in arrival order, and the final parse is
applied to that full accumulated string. -/
theorem handleGenerate_accumulation (chunks : List String) :
    (runStreamLoop chunks).streamedResponse.data = (chunks.map String.data).flatten ∧
    generateFinalParse chunks = parseAIResponse (chunks.map String.data).flatten := by
  have h := runStreamLoop_data chunks { streamedResponse := "", placeholderText := "" }
  have h1 : (runStreamLoop chunks).streamedResponse.data = (chunks.map String.data).flatten := by
    simpa [runStreamLoop] using h
  exact ⟨h1, by rw [generateFinalParse, h1]⟩

/-- C10: on the response `<markdown_code></markdown_code>` the balanced
branch does not fire (the captured group is empty), the salvage branch
strips the trailing close tag and returns the empty markdown string, and
the post-parse step of `handleGenerate` performs no undo-stack write and
shows the no-content error. -/
theorem emptyTag_salvage :
    regexCapture emptyTagResponse = some [] ∧
    matchTruthy emptyTagResponse = false ∧
    firstIdxOf openTag emptyTagResponse = some 0 ∧
    parseAIResponse emptyTagResponse = { text := [], markdown := some [] } ∧
    (∀ (s : AppState) (now : Nat) (ts : String),
      (applyParseOutcome s (parseAIResponse emptyTagResponse) now ts).markdownHistory
          = s.markdownHistory ∧
      (applyParseOutcome s (parseAIResponse emptyTagResponse) now ts).markdownHistoryIndex
          = s.markdownHistoryIndex ∧
      (applyParseOutcome s (parseAIResponse emptyTagResponse) now ts).error
          = some noContentMessage) := by
  refine ⟨by decide, by decide, by decide, by decide, ?_⟩
  intro s now ts
  have hp : parseAIResponse emptyTagResponse = { text := [], markdown := some [] } := by
    decide
  rw [hp]
  unfold applyParseOutcome
  simp [mdTruthy]

/-- C2: when the response decomposes as `pre ++ openTag ++ mid ++ closeTag
++ post` with the open tag occurring nowhere before `pre.length` (so this
is the first open tag), the close tag occurring nowhere in `mid` (so this
is the first, shortest, non-greedy match) and a non-empty `mid`,
`parseAIResponse` returns the enclosed content trimmed as the markdown and
the response with the whole first delimited block removed, trimmed, as the
conversational text. -/
theorem parseAIResponse_balanced (pre mid post : List Char)
    (hne : mid ≠ [])
    (hpre : ∀ k, k < pre.length →
      openTag.isPrefixOf ((pre ++ openTag ++ mid ++ closeTag ++ post).drop k) = false)
    (hmid : ∀ k, k < mid.length →
      closeTag.isPrefixOf ((mid ++ closeTag ++ post).drop k) = false) :
    parseAIResponse (pre ++ openTag ++ mid ++ closeTag ++ post) =
      { text := trimList (pre ++ post), markdown := some (trimList mid) } := by
  have e1 : pre ++ openTag ++ mid ++ closeTag ++ post
      = pre ++ (openTag ++ mid ++ closeTag ++ post) := by
    simp [List.append_assoc]
  have e2 : openTag ++ mid ++ closeTag ++ post
      = openTag ++ (mid ++ closeTag ++ post) := by
    simp [List.append_assoc]
  have e3 : mid ++ closeTag ++ post = mid ++ (closeTag ++ post) := by
    simp [List.append_assoc]
  have hopen : firstIdxOf openTag (pre ++ openTag ++ mid ++ closeTag ++ post)
      = some pre.length := by
    apply firstIdxOf_spec_some
    · rw [e1, List.drop_left, e2]
      exact (List.isPrefixOf_iff_prefix).mpr (List.prefix_append _ _)
    · exact hpre
  have hdropOpen : (pre ++ openTag ++ mid ++ closeTag ++ post).drop
      (pre.length + openTag.length) = mid ++ closeTag ++ post := by
    have hassoc : pre ++ openTag ++ mid ++ closeTag ++ post
        = (pre ++ openTag) ++ (mid ++ closeTag ++ post) := by
      simp [List.append_assoc]
    rw [hassoc, ← List.length_append, List.drop_left]
  have hclose : firstIdxOf closeTag (mid ++ closeTag ++ post) = some mid.length := by
    apply firstIdxOf_spec_some
    · rw [e3, List.drop_left]
      exact (List.isPrefixOf_iff_prefix).mpr (List.prefix_append _ _)
    · exact hmid
  have hcap : regexCapture (pre ++ openTag ++ mid ++ closeTag ++ post) = some mid := by
    unfold regexCapture
    rw [hopen]
    simp only [hdropOpen, hclose]
    rw [e3, List.take_left]
  have hrem : regexRemove (pre ++ openTag ++ mid ++ closeTag ++ post) = pre ++ post := by
    unfold regexRemove
    rw [hopen]
    simp only [hdropOpen, hclose]
    have htake : (pre ++ openTag ++ mid ++ closeTag ++ post).take pre.length = pre := by
      rw [e1]; exact List.take_left pre _
    have hdropC : (mid ++ closeTag ++ post).drop (mid.length + closeTag.length) = post := by
      rw [← List.length_append, List.drop_left]
    rw [htake, hdropC]
  have htruthy : matchTruthy (pre ++ openTag ++ mid ++ closeTag ++ post) = true := by
    unfold matchTruthy
    rw [hcap]
    cases mid with
    | nil => exact absurd rfl hne
    | cons a t => simp
  unfold parseAIResponse
  rw [htruthy]
  simp only [if_true, hcap, hrem, Option.getD_some]

/-- C2 witness: the theorem applied to the concrete response
`A <markdown_code>X</markdown_code> B`. -/
theorem parseAIResponse_balanced_witness :
    parseAIResponse ("A ".data ++ openTag ++ "X".data ++ closeTag ++ " B".data)
      = { text := trimList ("A ".data ++ " B".data),
          markdown := some (trimList "X".data) } :=
  parseAIResponse_balanced "A ".data "X".data " B".data
    (by decide) (by decide) (by decide)

/-- C3: writing a new snapshot truncates the undo stack to its first
`index + 1` entries (discarding every redo state beyond the current
index), appends the new snapshot, and points the index at the new last
position `index + 1`. -/
theorem updateMarkdownState_truncates (s : AppState) (m : String) (now : Nat) (ts : String)
    (h : Inv s) :
    (updateMarkdownState s m now ts).markdownHistory
        = s.markdownHistory.take (s.markdownHistoryIndex + 1).toNat ++ [m] ∧
    ((s.markdownHistory.take (s.markdownHistoryIndex + 1).toNat).length : Int)
        = s.markdownHistoryIndex + 1 ∧
    (updateMarkdownState s m now ts).markdownHistoryIndex = s.markdownHistoryIndex + 1 ∧
    (updateMarkdownState s m now ts).markdown = m := by
  obtain ⟨h0, h1, h2⟩ := h
  have hlen : (s.markdownHistoryIndex + 1).toNat ≤ s.markdownHistory.length := by omega
  have htk : (s.markdownHistory.take (s.markdownHistoryIndex + 1).toNat).length
      = (s.markdownHistoryIndex + 1).toNat := by
    rw [List.length_take, Nat.min_eq_left hlen]
  refine ⟨rfl, by omega, ?_, rfl⟩
  show ((s.markdownHistory.take (s.markdownHistoryIndex + 1).toNat ++ [m]).length : Int) - 1
      = s.markdownHistoryIndex + 1
  have hta : (s.markdownHistory.take (s.markdownHistoryIndex + 1).toNat ++ [m]).length
      = (s.markdownHistory.take (s.markdownHistoryIndex + 1).toNat).length + 1 := by
    simp [List.length_append]
  omega

/-- C3 witness: the theorem applied to the concrete state with stack
`["", "a", "b"]` and index 1 (one undo behind the top). -/
theorem updateMarkdownState_truncates_witness :
    (updateMarkdownState sampleUndoState "m" 5 "t").markdownHistory
      = sampleUndoState.markdownHistory.take
          (sampleUndoState.markdownHistoryIndex + 1).toNat ++ ["m"] :=
  (updateMarkdownState_truncates sampleUndoState "m" 5 "t" (by decide)).1

/-- C4: the index invariant `0 ≤ index ≤ length - 1` over a non-empty
stack holds in the initial state and is preserved by every operation;
moreover `handleUndo` is a no-op at index 0, `handleRedo` is a no-op at
the last position, `updateMarkdownState` points the index at the new last
position, `handleSelectHistory` resets the stack to `['', item]` with
index 1, and `handleNewTask` resets the stack to `['']` with index 0. -/
theorem undoRedo_invariant :
    (∀ s : AppState, s.markdownHistory = [""] → s.markdownHistoryIndex = 0 → Inv s) ∧
    (∀ s : AppState, Inv s → Inv (handleUndo s)) ∧
    (∀ s : AppState, Inv s → Inv (handleRedo s)) ∧
    (∀ (s : AppState) (m : String) (now : Nat) (ts : String),
      Inv (updateMarkdownState s m now ts)) ∧
    (∀ (s : AppState) (id : Nat), Inv s → Inv (handleSelectHistory s id)) ∧
    (∀ s : AppState, Inv (handleNewTask s)) ∧
    (∀ s : AppState, s.markdownHistoryIndex = 0 → handleUndo s = s) ∧
    (∀ s : AppState, s.markdownHistoryIndex = (s.markdownHistory.length : Int) - 1 →
      handleRedo s = s) ∧
    (∀ (s : AppState) (m : String) (now : Nat) (ts : String),
      (updateMarkdownState s m now ts).markdownHistoryIndex
        = ((updateMarkdownState s m now ts).markdownHistory.length : Int) - 1) ∧
    (∀ (s : AppState) (id : Nat) (item : GenerationHistoryItem),
      s.generationHistory.find? (fun it => it.id == id) = some item →
      (handleSelectHistory s id).markdownHistory = ["", item.markdown] ∧
      (handleSelectHistory s id).markdownHistoryIndex = 1) ∧
    (∀ s : AppState, (handleNewTask s).markdownHistory = [""] ∧
      (handleNewTask s).markdownHistoryIndex = 0) := by
  refine ⟨?_, ?_, ?_, ?_, ?_, ?_, ?_, ?_, ?_, ?_, ?_⟩
  · intro s hh hi
    refine ⟨by omega, ?_, by rw [hh]; simp⟩
    rw [hh, hi]
    simp
  · intro s hInv
    obtain ⟨h0, h1, h2⟩ := hInv
    unfold handleUndo
    by_cases hc : 0 < s.markdownHistoryIndex
    · rw [if_pos hc]
      refine ⟨?_, ?_, ?_⟩ <;> dsimp only
      · omega
      · omega
      · exact h2
    · rw [if_neg hc]
      exact ⟨h0, h1, h2⟩
  · intro s hInv
    obtain ⟨h0, h1, h2⟩ := hInv
    unfold handleRedo
    by_cases hc : s.markdownHistoryIndex < (s.markdownHistory.length : Int) - 1
    · rw [if_pos hc]
      refine ⟨?_, ?_, ?_⟩ <;> dsimp only
      · omega
      · omega
      · exact h2
    · rw [if_neg hc]
      exact ⟨h0, h1, h2⟩
  · intro s m now ts
    unfold updateMarkdownState
    refine ⟨?_, ?_, ?_⟩ <;> dsimp only
    · have hta : (s.markdownHistory.take (s.markdownHistoryIndex + 1).toNat ++ [m]).length
          = (s.markdownHistory.take (s.markdownHistoryIndex + 1).toNat).length + 1 := by
        simp [List.length_append]
      omega
    · exact le_refl _
    · simp
  · intro s id hInv
    unfold handleSelectHistory
    cases hfind : s.generationHistory.find? (fun it => it.id == id) with
    | some item =>
      refine ⟨?_, ?_, ?_⟩ <;> dsimp only
      · omega
      · simp
      · simp
    | none => exact hInv
  · intro s
    refine ⟨?_, ?_, ?_⟩ <;> dsimp only [handleNewTask]
    · omega
    · simp
    · simp
  · intro s hi
    unfold handleUndo
    rw [if_neg (by omega)]
  · intro s hi
    unfold handleRedo
    rw [if_neg (by omega)]
  · intro s m now ts
    rfl
  · intro s id item hfind
    unfold handleSelectHistory
    rw [hfind]
    exact ⟨rfl, rfl⟩
  · intro s
    exact ⟨rfl, rfl⟩

/-- C4 witness: the invariant facts applied to concrete states. -/
theorem undoRedo_invariant_witness :
    Inv (handleUndo (updateMarkdownState initialState "M" 7 "t")) ∧
    Inv (handleRedo (updateMarkdownState initialState "M" 7 "t")) ∧
    Inv (handleSelectHistory initialState 3) ∧
    handleUndo initialState = initialState :=
  ⟨undoRedo_invariant.2.1 (updateMarkdownState initialState "M" 7 "t") (by decide),
   undoRedo_invariant.2.2.1 (updateMarkdownState initialState "M" 7 "t") (by decide),
   undoRedo_invariant.2.2.2.2.1 initialState 3 (by decide),
   undoRedo_invariant.2.2.2.2.2.2.1 initialState (by decide)⟩

/-- C9 (amended): undo followed by redo (and redo followed by undo, on the
interior of the stack) always restores the history index, and restores the
displayed markdown provided the displayed markdown equals the history
entry at the current index — an equality that holds after every history
operation but is broken in the window after `handleGenerate` clears the
document without writing the undo stack. -/
theorem undo_redo_inverse (s : AppState) (h : Inv s) :
    (0 < s.markdownHistoryIndex →
      (handleRedo (handleUndo s)).markdownHistoryIndex = s.markdownHistoryIndex ∧
      (s.markdown = jsIndex s.markdownHistory s.markdownHistoryIndex →
        (handleRedo (handleUndo s)).markdown = s.markdown)) ∧
    (s.markdownHistoryIndex < (s.markdownHistory.length : Int) - 1 →
      (handleUndo (handleRedo s)).markdownHistoryIndex = s.markdownHistoryIndex ∧
      (s.markdown = jsIndex s.markdownHistory s.markdownHistoryIndex →
        (handleUndo (handleRedo s)).markdown = s.markdown)) := by
  obtain ⟨h0, h1, h2⟩ := h
  constructor
  · intro hpos
    have hu : handleUndo s
        = { s with
            markdownHistoryIndex := s.markdownHistoryIndex - 1,
            markdown := jsIndex s.markdownHistory (s.markdownHistoryIndex - 1),
            activeHistoryId := none } := by
      unfold handleUndo
      rw [if_pos hpos]
    have hc2 : s.markdownHistoryIndex - 1 < (s.markdownHistory.length : Int) - 1 := by
      omega
    rw [hu]
    unfold handleRedo
    dsimp only
    rw [if_pos hc2]
    refine ⟨by dsimp only; omega, ?_⟩
    intro hm
    dsimp only
    rw [show s.markdownHistoryIndex - 1 + 1 = s.markdownHistoryIndex from by omega]
    exact hm.symm
  · intro hlt
    have hr : handleRedo s
        = { s with
            markdownHistoryIndex := s.markdownHistoryIndex + 1,
            markdown := jsIndex s.markdownHistory (s.markdownHistoryIndex + 1),
            activeHistoryId := none } := by
      unfold handleRedo
      rw [if_pos hlt]
    have hc2 : (0 : Int) < s.markdownHistoryIndex + 1 := by omega
    rw [hr]
    unfold handleUndo
    dsimp only
    rw [if_pos hc2]
    refine ⟨by dsimp only; omega, ?_⟩
    intro hm
    dsimp only
    rw [show s.markdownHistoryIndex + 1 - 1 = s.markdownHistoryIndex from by omega]
    exact hm.symm

/-- C9 witness: undo-then-redo at a concrete state reached by one
successful generation restores the displayed markdown. -/
theorem undo_redo_inverse_witness :
    (handleRedo (handleUndo (updateMarkdownState initialState "M" 7 "t"))).markdown
      = (updateMarkdownState initialState "M" 7 "t").markdown :=
  (((undo_redo_inverse (updateMarkdownState initialState "M" 7 "t")
      (by decide)).1 (by decide)).2 (by decide))

/-- C9 counterexample: in `brokenState` — reached by one successful
generation of "M" followed by a failed generation, which clears the
displayed document but not the undo stack — undo is enabled and undo
followed by redo restores the history index, yet it does not restore the
displayed markdown. -/
theorem undo_redo_inverse_counterexample :
    0 < brokenState.markdownHistoryIndex ∧
    (handleRedo (handleUndo brokenState)).markdownHistoryIndex
      = brokenState.markdownHistoryIndex ∧
    (handleRedo (handleUndo brokenState)).markdown ≠ brokenState.markdown := by
  decide

/-- C6: `getErrorMessage` is total and maps every thrown value to exactly
one of the three fixed strings: the safety message exactly for `Error`s
whose message contains `SAFETY`, the network message exactly for `Error`s
whose message contains `fetch` but not `SAFETY`, and the generic message
in every other case, including non-`Error` values. -/
theorem getErrorMessage_total (v : ThrownValue) :
    (getErrorMessage v = safetyMessage ∨ getErrorMessage v = networkMessage ∨
      getErrorMessage v = genericMessage) ∧
    (getErrorMessage v = safetyMessage ↔
      ∃ m, v = ThrownValue.jsError m ∧ containsSub "SAFETY".data m.data = true) ∧
    (getErrorMessage v = networkMessage ↔
      ∃ m, v = ThrownValue.jsError m ∧ containsSub "fetch".data m.data = true ∧
        containsSub "SAFETY".data m.data = false) ∧
    (getErrorMessage v = genericMessage ↔
      ∀ m, v = ThrownValue.jsError m →
        containsSub "SAFETY".data m.data = false ∧ containsSub "fetch".data m.data = false) := by
  have d1 : safetyMessage ≠ networkMessage := by decide
  have d2 : safetyMessage ≠ genericMessage := by decide
  have d3 : networkMessage ≠ genericMessage := by decide
  cases v with
  | nonError =>
    have hval : getErrorMessage ThrownValue.nonError = genericMessage := rfl
    rw [hval]
    refine ⟨Or.inr (Or.inr rfl), ?_, ?_, ?_⟩
    · constructor
      · intro hcontra
        exact absurd hcontra.symm d2
      · rintro ⟨m2, hm2, _⟩
        exact ThrownValue.noConfusion hm2
    · constructor
      · intro hcontra
        exact absurd hcontra.symm d3
      · rintro ⟨m2, hm2, _⟩
        exact ThrownValue.noConfusion hm2
    · exact ⟨fun _ m2 hm2 => ThrownValue.noConfusion hm2, fun _ => rfl⟩
  | jsError m =>
    cases hs : containsSub "SAFETY".data m.data with
    | true =>
      have hval : getErrorMessage (ThrownValue.jsError m) = safetyMessage := by
        simp [getErrorMessage, hs]
      rw [hval]
      refine ⟨Or.inl rfl, ?_, ?_, ?_⟩
      · exact ⟨fun _ => ⟨m, rfl, hs⟩, fun _ => rfl⟩
      · constructor
        · intro hcontra
          exact absurd hcontra d1
        · rintro ⟨m2, hm2, _, hcS⟩
          injection hm2 with hmm
          subst hmm
          rw [hs] at hcS
          exact absurd hcS (by decide)
      · constructor
        · intro hcontra
          exact absurd hcontra d2
        · intro hall
          have h1 := (hall m rfl).1
          rw [h1] at hs
          exact absurd hs (by decide)
    | false =>
      cases hf : containsSub "fetch".data m.data with
      | true =>
        have hval : getErrorMessage (ThrownValue.jsError m) = networkMessage := by
          simp [getErrorMessage, hs, hf]
        rw [hval]
        refine ⟨Or.inr (Or.inl rfl), ?_, ?_, ?_⟩
        · constructor
          · intro hcontra
            exact absurd hcontra.symm d1
          · rintro ⟨m2, hm2, hcS⟩
            injection hm2 with hmm
            subst hmm
            rw [hs] at hcS
            exact absurd hcS (by decide)
        · exact ⟨fun _ => ⟨m, rfl, hf, hs⟩, fun _ => rfl⟩
        · constructor
          · intro hcontra
            exact absurd hcontra d3
          · intro hall
            have h2 := (hall m rfl).2
            rw [h2] at hf
            exact absurd hf (by decide)
      | false =>
        have hval : getErrorMessage (ThrownValue.jsError m) = genericMessage := by
          simp [getErrorMessage, hs, hf]
        rw [hval]
        refine ⟨Or.inr (Or.inr rfl), ?_, ?_, ?_⟩
        · constructor
          · intro hcontra
            exact absurd hcontra.symm d2
          · rintro ⟨m2, hm2, hcS⟩
            injection hm2 with hmm
            subst hmm
            rw [hs] at hcS
            exact absurd hcS (by decide)
        · constructor
          · intro hcontra
            exact absurd hcontra.symm d3
          · rintro ⟨m2, hm2, hcF, _⟩
            injection hm2 with hmm
            subst hmm
            rw [hf] at hcF
            exact absurd hcF (by decide)
        · refine ⟨fun _ m2 hm2 => ?_, fun _ => rfl⟩
          injection hm2 with hmm
          subst hmm
          exact ⟨hs, hf⟩

/-- C7: when the request of `handleGenerate` or `handleSendMessage` throws
at any point of the streaming, the handler maps the error to the
user-facing string, clears the streaming flag, and removes any partial AI
message: `handleGenerate` leaves exactly the user message (only user-sent
messages survive the filter), `handleSendMessage` drops the last appended
message, leaving the previous history with at most the new user message
added; no retry is issued (each handler is a single pass). -/
theorem failure_cleanup (s : AppState) (msg : String) (now now2 : Nat)
    (err err2 : ThrownValue) (delivered delivered2 : Option (List String))
    (hp : trimString s.userPrompt ≠ "") (hm : trimString msg ≠ "") :
    (handleGenerateFailure s now err delivered).error = some (getErrorMessage err) ∧
    (handleGenerateFailure s now err delivered).isStreaming = false ∧
    (handleGenerateFailure s now err delivered).chatHistory
      = [{ sender := Sender.user, text := s.userPrompt, markdown := none, id := now }] ∧
    (∀ x ∈ (handleGenerateFailure s now err delivered).chatHistory,
      x.sender = Sender.user) ∧
    (handleSendMessageFailure s msg now2 err2 delivered2).error
      = some (getErrorMessage err2) ∧
    (handleSendMessageFailure s msg now2 err2 delivered2).isStreaming = false ∧
    ((handleSendMessageFailure s msg now2 err2 delivered2).chatHistory = s.chatHistory ∨
      (handleSendMessageFailure s msg now2 err2 delivered2).chatHistory
        = s.chatHistory
            ++ [{ sender := Sender.user, text := msg, markdown := none, id := now2 }]) := by
  have hbu : (Sender.user == Sender.user) = true := by decide
  have hba : (Sender.ai == Sender.user) = false := by decide
  have hchat : (handleGenerateFailure s now err delivered).chatHistory
      = [{ sender := Sender.user, text := s.userPrompt, markdown := none, id := now }] := by
    unfold handleGenerateFailure
    rw [if_neg hp]
    cases delivered with
    | none => simp [List.filter_cons, hbu]
    | some chunks => simp [List.filter_cons, hbu, hba]
  have herr : (handleGenerateFailure s now err delivered).error
      = some (getErrorMessage err) := by
    unfold handleGenerateFailure
    rw [if_neg hp]
  have hstream : (handleGenerateFailure s now err delivered).isStreaming = false := by
    unfold handleGenerateFailure
    rw [if_neg hp]
  refine ⟨herr, hstream, hchat, ?_, ?_, ?_, ?_⟩
  · intro x hmem
    rw [hchat, List.mem_singleton] at hmem
    rw [hmem]
  · unfold handleSendMessageFailure
    rw [if_neg hm]
  · unfold handleSendMessageFailure
    rw [if_neg hm]
  · unfold handleSendMessageFailure
    rw [if_neg hm]
    cases delivered2 with
    | none =>
      left
      dsimp only
      rw [List.dropLast_concat]
    | some chunks =>
      right
      dsimp only
      rw [show s.chatHistory
            ++ [({ sender := .user, text := msg, markdown := none, id := now2 } : ChatMessage),
                { sender := .ai, text := (runStreamLoop chunks).placeholderText,
                  markdown := none, id := now2 + 1 }]
          = (s.chatHistory
              ++ [({ sender := .user, text := msg, markdown := none,
                     id := now2 } : ChatMessage)])
            ++ [({ sender := .ai, text := (runStreamLoop chunks).placeholderText,
                   markdown := none, id := now2 + 1 } : ChatMessage)] from by
        simp [List.append_assoc]]
      rw [List.dropLast_concat]

/-- C7 witness: the theorem applied to a concrete failed generation and a
concrete failed follow-up message. -/
theorem failure_cleanup_witness :
    (handleGenerateFailure { initialState with userPrompt := "hi" } 1
        ThrownValue.nonError none).chatHistory
      = [{ sender := Sender.user, text := "hi", markdown := none, id := 1 }] :=
  (failure_cleanup { initialState with userPrompt := "hi" } "yo" 1 2
      ThrownValue.nonError ThrownValue.nonError none (some ["a"])
      (by decide) (by decide)).2.2.1

/-- C8: the persisted blob of each variant contains exactly the last
prompt, the selected options (language/style, chat-mode flag and — in the
profile variant — the GitHub token), the conversation history and the
generation history; loading the saved blob restores those fields (the
language requires only that a selected language is a non-empty string),
while the current markdown document and the undo/redo stack are never
part of the blob and always restart as `""` and `['']`. -/
theorem persistence_roundtrip (s1 : AppStateV1) (s2 : AppStateV2)
    (hlang : s1.programmingLanguage ≠ "") :
    (initApp1 (some (stateToSave1 s1))).userPrompt = s1.userPrompt ∧
    (initApp1 (some (stateToSave1 s1))).programmingLanguage = s1.programmingLanguage ∧
    (initApp1 (some (stateToSave1 s1))).isChatModeEnabled = s1.isChatModeEnabled ∧
    (initApp1 (some (stateToSave1 s1))).chatHistory = s1.chatHistory ∧
    (initApp1 (some (stateToSave1 s1))).generationHistory = s1.generationHistory ∧
    (initApp2 (some (stateToSave2 s2))).userPrompt = s2.userPrompt ∧
    (initApp2 (some (stateToSave2 s2))).selectedLanguages = s2.selectedLanguages ∧
    (initApp2 (some (stateToSave2 s2))).githubToken = s2.githubToken ∧
    (initApp2 (some (stateToSave2 s2))).isChatModeEnabled = s2.isChatModeEnabled ∧
    (initApp2 (some (stateToSave2 s2))).chatHistory = s2.chatHistory ∧
    (initApp2 (some (stateToSave2 s2))).generationHistory = s2.generationHistory ∧
    (∀ (m : String) (hist : List String) (i : Int),
      stateToSave1 { s1 with
        markdown := m, markdownHistory := hist, markdownHistoryIndex := i }
        = stateToSave1 s1) ∧
    (∀ (m : String) (hist : List String) (i : Int),
      stateToSave2 { s2 with
        markdown := m, markdownHistory := hist, markdownHistoryIndex := i }
        = stateToSave2 s2) ∧
    (initApp1 (some (stateToSave1 s1))).markdown = "" ∧
    (initApp1 (some (stateToSave1 s1))).markdownHistory = [""] ∧
    (initApp1 (some (stateToSave1 s1))).markdownHistoryIndex = 0 ∧
    (initApp2 (some (stateToSave2 s2))).markdown = "" ∧
    (initApp2 (some (stateToSave2 s2))).markdownHistory = [""] ∧
    (initApp2 (some (stateToSave2 s2))).markdownHistoryIndex = 0 := by
  have hor : ∀ v : String, jsOrString v "" = v := by
    intro v
    unfold jsOrString
    by_cases hv : v = ""
    · rw [if_pos hv, hv]
    · rw [if_neg hv]
  refine ⟨hor s1.userPrompt, ?_, rfl, rfl, rfl, hor s2.userPrompt, rfl,
      hor s2.githubToken, rfl, rfl, rfl,
      fun m hist i => rfl, fun m hist i => rfl, rfl, rfl, rfl, rfl, rfl, rfl⟩
  show jsOrString s1.programmingLanguage "HTML/CSS/JS" = s1.programmingLanguage
  unfold jsOrString
  rw [if_neg hlang]

/-- C8 witness: the round trip applied to a concrete state of each
variant. -/
theorem persistence_roundtrip_witness :
    (initApp1 (some (stateToSave1
        { userPrompt := "p", programmingLanguage := "HTML/CSS/JS", markdown := "doc",
          chatHistory := [], markdownHistory := ["", "doc"], markdownHistoryIndex := 1,
          isChatModeEnabled := false, generationHistory := [] }))).programmingLanguage
      = "HTML/CSS/JS" :=
  (persistence_roundtrip
    { userPrompt := "p", programmingLanguage := "HTML/CSS/JS", markdown := "doc",
      chatHistory := [], markdownHistory := ["", "doc"], markdownHistoryIndex := 1,
      isChatModeEnabled := false, generationHistory := [] }
    { userPrompt := "q", selectedLanguages := ["Go"], githubToken := "", markdown := "",
      chatHistory := [], markdownHistory := [""], markdownHistoryIndex := 0,
      isChatModeEnabled := true, generationHistory := [] }
    (by decide)).2.1

end ProfileApp
